import Mathlib

/-!
Shallow embedding of the chat-room API core (`src/api/chats.ts`) of the
repository: room creation, message posting, rename, user listing, invite and
kick, together with the session rate limiter.

Only `src/api/chats.ts` is part of the repository source.  The collaborators it
calls (`messaging.*`, `user.*`, `plugins.hooks`, `socketHelpers`, `validator`,
`meta.config`) are external modules; they are modelled from the spec
(spec sections 4.2, 4.5, 6) as explicit state-passing functions over a `World`,
or as policy functions carried by an `Env` record.

Conventions of the embedding:
* JavaScript numbers used as user ids / room ids are `Nat`; timestamps are
  `Int` (so `now - last` behaves like JS subtraction, never truncating).
* A JS exception becomes `Except Err`; the distinct thrown error strings of the
  source map to the spec's error kinds (section 7).
* Mutation of the caller's session, of the `data` argument object and of the
  store is explicit state passing: each operation returns its result together
  with the updated objects.
* Notifier calls are recorded in an effect trace (`List Effect`).
-/

/-- The spec's error kinds (section 7).  `undefinedField` is not a spec error:
it marks executions that dereference a field the TypeScript non-null
assertions (`data.roomId!`, `data.uids!`) promise is present; theorems always
hypothesise those fields present, so this constructor models no behaviour of
interest. -/
inductive Err where
  | rateLimited
  | invalidRequest
  | forbidden
  | noSuchUser
  | roomFull
  | notFound
  | hookRejected
  | undefinedField
deriving DecidableEq, Repr

/-- `SessionData` of the source: the session object carrying the rate-limiter
timestamp.  `lastChatMessageTime?: number` is an optional field. -/
structure Session where
  lastChatMessageTime : Option Int
deriving DecidableEq, Repr

/-- The `Caller` of the source.  The source picks the session object from
`caller.request.session` (http) or `caller.session` (socket); both hold the
same `SessionData` shape, so the embedding carries the selected session
directly.  `ip?: string` is optional. -/
structure Caller where
  uid : Nat
  session : Session
  ip : Option String
deriving DecidableEq, Repr

/-- `meta.config`, the Config Provider values read by the source
(`chatMessageDelay`, `maximumUsersInChatRoom`).  A `maximumUsersInChatRoom`
of `0` is falsy in JS and means unlimited. -/
structure Config where
  chatMessageDelay : Int
  maximumUsersInChatRoom : Nat
deriving DecidableEq, Repr

/-- The runtime value found in `data.uids`: the source checks
`Array.isArray(data.uids)`, so a present field is either an array of uids or
some non-array value. -/
inductive UidsField where
  | arr (l : List Nat)
  | notArray
deriving DecidableEq, Repr

/-- The `Data` argument bag of the source; every field is optional. -/
structure Data where
  uids : Option UidsField
  roomId : Option Nat
  message : Option String
  name : Option String
deriving DecidableEq, Repr

/-- A stored room (spec section 3): owner, optional display name, and the
member list in insertion order with no duplicates.  Note there is no stored
`canKick` field: `canKick` exists only on the records computed by
`chatsAPI.users`. -/
structure Room where
  ownerId : Nat
  name : Option String
  members : List Nat
deriving DecidableEq, Repr

/-- A record returned by `chatsAPI.users`: a member uid with the
query-time-computed `canKick` bit. -/
structure MemberRecord where
  uid : Nat
  canKick : Bool
deriving DecidableEq, Repr

/-- A persisted chat message (spec section 3). -/
structure Message where
  uid : Nat
  roomId : Nat
  content : String
  timestamp : Int
  ip : String
deriving DecidableEq, Repr

/-- The room view returned by `messaging.loadRoom`. -/
structure RoomView where
  roomId : Nat
  room : Room
deriving DecidableEq, Repr

/-- Notifier / user-directory side effects dispatched by the source, recorded
as a trace. -/
inductive Effect where
  | notifyUsersInRoom (actorId roomId : Nat) (m : Message)
  | emitToUids (event : String) (roomId : Nat) (newName : String) (uids : List Nat)
  | updateOnlineUsers (uid : Nat)
deriving DecidableEq, Repr

/-- The Room Store state plus the message store: rooms keyed by roomId (kept
as an association list so lookups are executable), persisted messages, and the
next fresh room id. -/
structure World where
  rooms : List (Nat × Room)
  messages : List Message
  nextRoomId : Nat
deriving DecidableEq, Repr

/-- External policies the core only invokes (spec sections 4.2, 6): user
existence, the user-to-user messaging policy, the room messaging policy and
the Hook Pipeline transform of `filter:messaging.send`. -/
structure Env where
  userExists : Nat → Bool
  canMessageUser : Nat → Nat → Bool
  canMessageRoom : Nat → Nat → Bool
  hookTransform : Nat → Data → Except Err Data

def World.findRoom (w : World) (rid : Nat) : Option Room :=
  w.rooms.lookup rid

def World.setRoom (w : World) (rid : Nat) (r : Room) : World :=
  { w with rooms := w.rooms.map (fun p => if p.1 = rid then (rid, r) else p) }

/-- Append an element to a member list unless already present (spec section 3:
membership is a set, insertion order preserved). -/
def addUnique (l : List Nat) (x : Nat) : List Nat :=
  if l.contains x then l else l ++ [x]

/-- JS `String(x)` on the optional `data.name`: an absent field prints as
`"undefined"`. -/
def jsString (o : Option String) : String :=
  match o with
  | some s => s
  | none => "undefined"

/-- One character of `validator.escape` (HTML entity escaping): `&`, `"`, `'`,
`<`, `>`, `/`, `\` and the backquote are replaced by entities, every other
character is kept.  Characters are named by code point. -/
def escapeChar (c : Char) : String :=
  if c = Char.ofNat 38 then "&amp;"
  else if c = Char.ofNat 34 then "&quot;"
  else if c = Char.ofNat 39 then "&#x27;"
  else if c = Char.ofNat 60 then "&lt;"
  else if c = Char.ofNat 62 then "&gt;"
  else if c = Char.ofNat 47 then "&#x2F;"
  else if c = Char.ofNat 92 then "&#x5C;"
  else if c = Char.ofNat 96 then "&#96;"
  else String.singleton c

/-- Modelled from the spec (section 1, out of scope utility): `validator.escape`,
HTML-escaping of display text.  The sequential `replace` chain of the library
is equivalent to this single character map because no replacement string
contains a character that a later `replace` targets. -/
def validatorEscape (s : String) : String :=
  String.join (s.data.map escapeChar)

/-- Modelled from the spec (section 4.2): `messaging.canMessageUser` fails with
`Forbidden` when the delegated user-to-user policy denies, otherwise succeeds. -/
def messaging.canMessageUser (env : Env) (actorId targetId : Nat) : Except Err Unit :=
  if env.canMessageUser actorId targetId then .ok () else .error .forbidden

/-- Modelled from the spec (section 4.2): `messaging.canMessageRoom` fails with
`Forbidden` when the room messaging policy denies the actor. -/
def messaging.canMessageRoom (env : Env) (actorId roomId : Nat) : Except Err Unit :=
  if env.canMessageRoom actorId roomId then .ok () else .error .forbidden

/-- Modelled from the spec (section 6): `getRoomData` is a pass-through read;
a missing room surfaces `NotFound`. -/
def messaging.getRoomData (w : World) (roomId : Nat) : Except Err Room :=
  match w.findRoom roomId with
  | some r => .ok r
  | none => .error .notFound

/-- Modelled from the spec (section 6): `memberCount` of the Room Store. -/
def messaging.getUserCountInRoom (w : World) (roomId : Nat) : Except Err Nat :=
  (messaging.getRoomData w roomId).map (fun r => r.members.length)

/-- Modelled from the spec (section 4.2): `isRoomOwner` is a pure query, the
only failure is room-not-found. -/
def messaging.isRoomOwner (w : World) (uid roomId : Nat) : Except Err Bool :=
  (messaging.getRoomData w roomId).map (fun r => r.ownerId = uid)

/-- Modelled from the spec (section 6): `listMembers(roomId, 0, -1)` returns the
full ordered member sequence. -/
def messaging.getUsersInRoom (w : World) (roomId : Nat) : Except Err (List Nat) :=
  (messaging.getRoomData w roomId).map (fun r => r.members)

/-- Modelled from the spec (section 6): same ordered member sequence, uid view. -/
def messaging.getUidsInRoom (w : World) (roomId : Nat) : Except Err (List Nat) :=
  (messaging.getRoomData w roomId).map (fun r => r.members)

/-- Modelled from the spec (section 4.3): `newRoom` creates an active room with
`ownerId = actorId` and `memberIds = {actorId} ∪ uids`, returning the fresh id. -/
def messaging.newRoom (w : World) (ownerId : Nat) (uids : List Nat) : Nat × World :=
  let rid := w.nextRoomId
  let room : Room := { ownerId := ownerId, name := none, members := uids.foldl addUnique [ownerId] }
  (rid, { w with rooms := w.rooms ++ [(rid, room)], nextRoomId := rid + 1 })

/-- Modelled from the spec (section 6): atomic membership add of the Room
Store; ids already present are not duplicated. -/
def messaging.addUsersToRoom (w : World) (actorId : Nat) (uids : List Nat) (roomId : Nat) :
    Except Err World :=
  (messaging.getRoomData w roomId).map
    (fun r => w.setRoom roomId { r with members := uids.foldl addUnique r.members })

/-- Modelled from the spec (section 4.3): owner-driven removal — requires the
actor to be the room owner, otherwise fails with `Forbidden`; on success the
listed members are removed. -/
def messaging.removeUsersFromRoom (w : World) (actorId : Nat) (uids : List Nat) (roomId : Nat) :
    Except Err World :=
  match messaging.getRoomData w roomId with
  | .error e => .error e
  | .ok r =>
    if r.ownerId = actorId then
      .ok (w.setRoom roomId { r with members := r.members.filter (fun m => !(uids.contains m)) })
    else
      .error .forbidden

/-- Modelled from the spec (section 4.3): leave-room — any member may remove
themselves, no ownership check. -/
def messaging.leaveRoom (w : World) (uids : List Nat) (roomId : Nat) : Except Err World :=
  (messaging.getRoomData w roomId).map
    (fun r => w.setRoom roomId { r with members := r.members.filter (fun m => !(uids.contains m)) })

/-- Modelled from the spec (section 4.3): `renameRoom` persists the new name.
The rename operation performs no ownership check in this design (spec sections
4.3 and 9). -/
def messaging.renameRoom (w : World) (actorId roomId : Nat) (name : Option String) :
    Except Err World :=
  (messaging.getRoomData w roomId).map (fun r => w.setRoom roomId { r with name := name })

/-- Modelled from the spec (section 4.5): `loadRoom` is a pass-through read
returning the room view for the viewer. -/
def messaging.loadRoom (w : World) (viewerId roomId : Nat) : Except Err RoomView :=
  (messaging.getRoomData w roomId).map (fun r => { roomId := roomId, room := r })

/-- `rateLimitExceeded` of the source, translated line by line: read the stored
timestamp with `|| 0` (which also writes the default back), report exceeded
without moving the window when `now - last < chatMessageDelay`, otherwise
store `now` and report not exceeded.  Returns the flag and the updated
session. -/
def rateLimitExceeded (cfg : Config) (now : Int) (session : Session) : Bool × Session :=
  let last := session.lastChatMessageTime.getD 0
  if now - last < cfg.chatMessageDelay then
    (true, { session with lastChatMessageTime := some last })
  else
    (false, { session with lastChatMessageTime := some now })

/-- `chatsAPI.create` of the source: rate-limit check, then the
`!data.uids || !Array.isArray(data.uids)` validation (note a present empty
array is truthy in JS and passes), then `canMessageUser` for every invitee
(`Promise.all`, modelled as: all must pass, any denial rejects with
`Forbidden`), then `newRoom` and `getRoomData`.  Returns the result, the
updated session and the updated world. -/
def chatsAPI.create (env : Env) (cfg : Config) (now : Int) (w : World)
    (caller : Caller) (data : Data) : Except Err Room × Session × World :=
  let rl := rateLimitExceeded cfg now caller.session
  if rl.1 then (.error .rateLimited, rl.2, w)
  else
    match data.uids with
    | some (.arr uids) =>
      if uids.all (fun uid => env.canMessageUser caller.uid uid) then
        let nr := messaging.newRoom w caller.uid uids
        match messaging.getRoomData nr.2 nr.1 with
        | .ok roomData => (.ok roomData, rl.2, nr.2)
        | .error e => (.error e, rl.2, nr.2)
      else (.error .forbidden, rl.2, w)
    | _ => (.error .invalidRequest, rl.2, w)

/-- `chatsAPI.post` of the source: rate-limit check, hook-pipeline transform of
the payload, the `!data.roomId || !data.message || !caller.ip` presence check
(JS falsiness: absent, `0` and `""` all fail it), `canMessageRoom`, persist the
message with a server-assigned timestamp, then notify the room and mark the
sender online.  Returns the result, updated session, updated world and the
effect trace. -/
def chatsAPI.post (env : Env) (cfg : Config) (now : Int) (w : World)
    (caller : Caller) (data : Data) :
    Except Err Message × Session × World × List Effect :=
  let rl := rateLimitExceeded cfg now caller.session
  if rl.1 then (.error .rateLimited, rl.2, w, [])
  else
    match env.hookTransform caller.uid data with
    | .error e => (.error e, rl.2, w, [])
    | .ok d =>
      match d.roomId, d.message, caller.ip with
      | some roomId, some content, some ip =>
        if roomId = 0 || content = "" || ip = "" then
          (.error .invalidRequest, rl.2, w, [])
        else
          match messaging.canMessageRoom env caller.uid roomId with
          | .error e => (.error e, rl.2, w, [])
          | .ok _ =>
            let m : Message :=
              { uid := caller.uid, roomId := roomId, content := content,
                timestamp := now, ip := ip }
            (.ok m, rl.2, { w with messages := w.messages ++ [m] },
              [.notifyUsersInRoom caller.uid roomId m, .updateOnlineUsers caller.uid])
      | _, _, _ => (.error .invalidRequest, rl.2, w, [])

/-- `chatsAPI.rename` of the source: persist the new name via
`messaging.renameRoom` (no ownership check), fetch the current member uids,
emit the rename event with the HTML-escaped name to them, and return
`messaging.loadRoom` for the caller.  Returns the result, the updated world
and the effect trace. -/
def chatsAPI.rename (w : World) (caller : Caller) (data : Data) :
    Except Err RoomView × World × List Effect :=
  match data.roomId with
  | none => (.error .undefinedField, w, [])
  | some roomId =>
    match messaging.renameRoom w caller.uid roomId data.name with
    | .error e => (.error e, w, [])
    | .ok w1 =>
      match messaging.getUidsInRoom w1 roomId with
      | .error e => (.error e, w1, [])
      | .ok uids =>
        let effs := [Effect.emitToUids "event:chats.roomRename" roomId
          (validatorEscape (jsString data.name)) uids]
        match messaging.loadRoom w1 caller.uid roomId with
        | .ok view => (.ok view, w1, effs)
        | .error e => (.error e, w1, effs)

/-- `chatsAPI.users` of the source: fetch `isRoomOwner` and the member list,
then set `canKick` on each record to
`parseInt(user.uid) !== caller.uid && isOwner` — computed here at query time,
never read from the store. -/
def chatsAPI.users (w : World) (caller : Caller) (data : Data) :
    Except Err (List MemberRecord) :=
  match data.roomId with
  | none => .error .undefinedField
  | some roomId =>
    match messaging.isRoomOwner w caller.uid roomId, messaging.getUsersInRoom w roomId with
    | .error e, _ => .error e
    | _, .error e => .error e
    | .ok isOwner, .ok users =>
      .ok (users.map (fun u => { uid := u, canKick := (!(u = caller.uid)) && isOwner }))

/-- `chatsAPI.invite` of the source: capacity check
(`maxUsers && userCount >= maxUsers` — note the incoming invitee count is not
added), `user.exists` on all uids (`every(Boolean)` — all-or-nothing),
`canMessageUser` per invitee, `addUsersToRoom`, then `delete data.uids` and
delegate to `chatsAPI.users`.  Returns the result, the updated `data` object
and the updated world. -/
def chatsAPI.invite (env : Env) (cfg : Config) (w : World) (caller : Caller)
    (data : Data) : Except Err (List MemberRecord) × Data × World :=
  match data.roomId with
  | none => (.error .undefinedField, data, w)
  | some roomId =>
    match messaging.getUserCountInRoom w roomId with
    | .error e => (.error e, data, w)
    | .ok userCount =>
      let maxUsers := cfg.maximumUsersInChatRoom
      if !(maxUsers = 0) && maxUsers ≤ userCount then (.error .roomFull, data, w)
      else
        match data.uids with
        | none => (.error .undefinedField, data, w)
        | some .notArray => (.error .undefinedField, data, w)
        | some (.arr uids) =>
          let uidsExist := uids.map env.userExists
          if !uidsExist.all (fun b => b) then (.error .noSuchUser, data, w)
          else if !(uids.all (fun uid => env.canMessageUser caller.uid uid)) then
            (.error .forbidden, data, w)
          else
            match messaging.addUsersToRoom w caller.uid uids roomId with
            | .error e => (.error e, data, w)
            | .ok w1 =>
              let d1 : Data := { data with uids := none }
              (chatsAPI.users w1 caller d1, d1, w1)

/-- `chatsAPI.kick` of the source: `user.exists` on all uids (all-or-nothing),
then map the uids to decimal strings; if the string list is exactly the
one-element list of the caller's own uid rendered, `leaveRoom` (self-leave,
no ownership), otherwise `removeUsersFromRoom` (owner-driven); then
`delete data.uids` and delegate to `chatsAPI.users`.  Returns the result, the
updated `data` object and the updated world. -/
def chatsAPI.kick (env : Env) (w : World) (caller : Caller) (data : Data) :
    Except Err (List MemberRecord) × Data × World :=
  match data.uids with
  | none => (.error .undefinedField, data, w)
  | some .notArray => (.error .undefinedField, data, w)
  | some (.arr uids) =>
    let uidsExist := uids.map env.userExists
    if !uidsExist.all (fun b => b) then (.error .noSuchUser, data, w)
    else
      match data.roomId with
      | none => (.error .undefinedField, data, w)
      | some roomId =>
        let userIDsAsString := uids.map (fun uid => toString uid)
        let step : Except Err World :=
          match userIDsAsString with
          | [s] =>
            if s = toString caller.uid then messaging.leaveRoom w [caller.uid] roomId
            else messaging.removeUsersFromRoom w caller.uid uids roomId
          | _ => messaging.removeUsersFromRoom w caller.uid uids roomId
        match step with
        | .error e => (.error e, data, w)
        | .ok w1 =>
          let d1 : Data := { data with uids := none }
          (chatsAPI.users w1 caller d1, d1, w1)

/-! ## Helper lemmas

The source compares uids through their decimal renderings
(`uid.toString()` in `chatsAPI.kick`); the following development proves that
decimal rendering of naturals is injective, so those comparisons agree with
numeric equality. -/

theorem digitChar_toNat : ∀ d < 10, (Nat.digitChar d).toNat = 48 + d := by decide

theorem toDigitsCore_acc (b : Nat) :
    ∀ (f n : Nat) (ds : List Char),
      Nat.toDigitsCore b f n ds = Nat.toDigitsCore b f n [] ++ ds := by
  intro f
  induction f with
  | zero => intro n ds; simp [Nat.toDigitsCore]
  | succ f ih =>
    intro n ds
    simp only [Nat.toDigitsCore]
    by_cases h : n / b = 0
    · simp [h]
    · simp only [if_neg h]
      rw [ih (n / b) (Nat.digitChar (n % b) :: ds), ih (n / b) [Nat.digitChar (n % b)]]
      simp

/-- Value of a list of decimal digit characters, most significant first. -/
def digitsVal (l : List Char) : Nat :=
  l.foldl (fun a c => a * 10 + (c.toNat - 48)) 0

theorem toDigitsCore_val : ∀ (f n : Nat), n < 10 ^ f →
    digitsVal (Nat.toDigitsCore 10 f n []) = n := by
  intro f
  induction f with
  | zero => intro n h; interval_cases n; rfl
  | succ f ih =>
    intro n h
    simp only [Nat.toDigitsCore]
    by_cases h0 : n / 10 = 0
    · have hn : n < 10 := by omega
      simp only [if_pos h0, digitsVal, List.foldl]
      rw [digitChar_toNat (n % 10) (Nat.mod_lt _ (by norm_num))]
      omega
    · simp only [if_neg h0]
      rw [toDigitsCore_acc]
      have hrec : digitsVal (Nat.toDigitsCore 10 f (n / 10) []) = n / 10 := by
        apply ih
        have : n < 10 ^ f * 10 := by
          calc n < 10 ^ (f + 1) := h
          _ = 10 ^ f * 10 := by ring
        exact Nat.div_lt_of_lt_mul (by omega)
      simp only [digitsVal, List.foldl_append, List.foldl] at hrec ⊢
      rw [hrec, digitChar_toNat (n % 10) (Nat.mod_lt _ (by norm_num))]
      omega

theorem repr_digitsVal (n : Nat) : digitsVal (Nat.repr n).data = n := by
  have hlt : n < 10 ^ (n + 1) := by
    calc n < 2 ^ n := Nat.lt_two_pow n
    _ ≤ 10 ^ n := Nat.pow_le_pow_left (by norm_num) n
    _ ≤ 10 ^ (n + 1) := Nat.pow_le_pow_right (by norm_num) (Nat.le_succ n)
  simpa [Nat.repr, Nat.toDigits, List.asString] using toDigitsCore_val (n + 1) n hlt

/-- Decimal rendering of naturals is injective: the string comparison
`uid.toString() === caller.uid.toString()` of the source coincides with
numeric equality of the uids. -/
theorem natToString_inj (m n : Nat) (h : toString m = toString n) : m = n := by
  have hd : (Nat.repr m).data = (Nat.repr n).data := congrArg String.data h
  have := congrArg digitsVal hd
  rwa [repr_digitsVal, repr_digitsVal] at this

/-- Updating a present room keeps it present with the new value. -/
theorem lookup_map_set (rid : Nat) (r : Room) :
    ∀ (l : List (Nat × Room)) (r0 : Room), l.lookup rid = some r0 →
      (l.map (fun p => if p.1 = rid then (rid, r) else p)).lookup rid = some r := by
  intro l
  induction l with
  | nil => intro r0 h; simp [List.lookup] at h
  | cons p tl ih =>
    intro r0 h
    by_cases hp : p.1 = rid
    · rw [List.map_cons, if_pos hp]
      simp [List.lookup]
    · rw [List.map_cons, if_neg hp]
      have hne : (rid == p.1) = false := by
        simp only [beq_eq_false_iff_ne, ne_eq]
        exact fun hc => hp hc.symm
      rw [List.lookup_cons, hne] at h
      rw [List.lookup_cons, hne]
      exact ih _ h

theorem findRoom_setRoom (w : World) (rid : Nat) (r r0 : Room)
    (h : w.findRoom rid = some r0) : (w.setRoom rid r).findRoom rid = some r := by
  simpa [World.findRoom, World.setRoom] using lookup_map_set rid r w.rooms r0 h

/-! ## Concrete fixtures shared by witnesses and counterexamples -/

/-- Fully permissive environment: every user exists, all messaging allowed,
the hook pipeline is the identity. -/
def envAllow : Env :=
  { userExists := fun _ => true
    canMessageUser := fun _ _ => true
    canMessageRoom := fun _ _ => true
    hookTransform := fun _ d => .ok d }

/-- A fresh session: no message sent yet. -/
def session0 : Session := { lastChatMessageTime := none }

/-- An empty room store. -/
def emptyWorld : World := { rooms := [], messages := [], nextRoomId := 1 }

/-- A `Data` bag with no field set. -/
def dataEmpty : Data := { uids := none, roomId := none, message := none, name := none }

/-- Config with a 10ms message delay and no room capacity limit. -/
def cfgDelay10 : Config := { chatMessageDelay := 10, maximumUsersInChatRoom := 0 }

/-! ## Claims -/

/-- C2: with `lastChatMessageTime` read as 0 when unset, the rate limiter
reports exceeded without moving the stored timestamp when
`now - lastChatMessageTime < chatMessageDelay`, and otherwise stores `now` and
reports not exceeded; consequently, after an accepted submission at `t1`, a
second submission at `t2` with `t2 - t1 < chatMessageDelay` is rejected with
`RateLimited` and the recorded time stays `t1` (no state or effect is
produced). -/
theorem C2_rate_limiter (env : Env) (cfg : Config) (w : World) (caller : Caller)
    (data : Data) (t1 t2 : Int) (s1 : Session)
    (hfirst : rateLimitExceeded cfg t1 caller.session = (false, s1))
    (hwithin : t2 - t1 < cfg.chatMessageDelay) :
    (∀ (s : Session) (now : Int),
        now - s.lastChatMessageTime.getD 0 < cfg.chatMessageDelay →
        rateLimitExceeded cfg now s =
          (true, { lastChatMessageTime := some (s.lastChatMessageTime.getD 0) })) ∧
    (∀ (s : Session) (now : Int),
        ¬ now - s.lastChatMessageTime.getD 0 < cfg.chatMessageDelay →
        rateLimitExceeded cfg now s = (false, { lastChatMessageTime := some now })) ∧
    s1.lastChatMessageTime = some t1 ∧
    chatsAPI.post env cfg t2 w { caller with session := s1 } data =
      (.error .rateLimited, s1, w, []) := by
  have hs1 : s1 = { lastChatMessageTime := some t1 } := by
    by_cases hc : t1 - caller.session.lastChatMessageTime.getD 0 < cfg.chatMessageDelay
    · simp [rateLimitExceeded, if_pos hc] at hfirst
    · simp [rateLimitExceeded, if_neg hc] at hfirst
      exact hfirst.symm
  refine ⟨fun s now h => by simp [rateLimitExceeded, if_pos h],
    fun s now h => by simp [rateLimitExceeded, if_neg h], by rw [hs1], ?_⟩
  subst hs1
  have hrl : rateLimitExceeded cfg t2 { lastChatMessageTime := some t1 } =
      (true, { lastChatMessageTime := some t1 }) := by
    simp [rateLimitExceeded, hwithin]
  simp [chatsAPI.post, hrl]

/-- Witness for C2 at a concrete input: delay 10, first message accepted at
100, second attempt at 105 rejected with the stored time still 100. -/
theorem C2_rate_limiter_witness :
    (⟨some 100⟩ : Session).lastChatMessageTime = some (100 : Int) ∧
    chatsAPI.post envAllow cfgDelay10 105 emptyWorld
      { uid := 1, session := ⟨some 100⟩, ip := some "1.2.3.4" } dataEmpty =
      (.error .rateLimited, ⟨some 100⟩, emptyWorld, []) :=
  (C2_rate_limiter envAllow cfgDelay10 emptyWorld
    { uid := 1, session := session0, ip := some "1.2.3.4" } dataEmpty 100 105
    ⟨some 100⟩ (by decide) (by decide)).2.2

/-- A room owned by user 10 with members 10 and 7, stored as room 1. -/
def room1 : Room := { ownerId := 10, name := none, members := [10, 7] }

def wRoom1 : World := { rooms := [(1, room1)], messages := [], nextRoomId := 2 }

def caller10 : Caller := { uid := 10, session := session0, ip := none }

def caller1 : Caller := { uid := 1, session := session0, ip := some "1.2.3.4" }

def dataRoom1 : Data := { uids := none, roomId := some 1, message := none, name := none }

/-- C8: the user-list query returns the room's members with `canKick` computed
at query time as `uid different from the viewer AND viewer is the owner`; for
every returned record that is exactly the claimed iff.  (`canKick` is never
stored: the stored `Room` has no such field.) -/
theorem C8_users_canKick (w : World) (caller : Caller) (data : Data)
    (roomId : Nat) (room : Room)
    (hrid : data.roomId = some roomId)
    (hroom : w.findRoom roomId = some room) :
    chatsAPI.users w caller data = .ok (room.members.map (fun u =>
      { uid := u, canKick := (!(u = caller.uid)) && (decide (room.ownerId = caller.uid)) })) ∧
    ∀ records, chatsAPI.users w caller data = .ok records →
      ∀ r ∈ records, (r.canKick = true ↔ (r.uid ≠ caller.uid ∧ room.ownerId = caller.uid)) := by
  have hgrd : messaging.getRoomData w roomId = .ok room := by
    simp [messaging.getRoomData, hroom]
  have h1 : chatsAPI.users w caller data = .ok (room.members.map (fun u =>
      { uid := u, canKick := (!(u = caller.uid)) && (decide (room.ownerId = caller.uid)) })) := by
    simp [chatsAPI.users, hrid, messaging.isRoomOwner, messaging.getUsersInRoom, hgrd,
      Except.map]
  refine ⟨h1, ?_⟩
  intro records hrec r hr
  rw [h1] at hrec
  injection hrec with hrec
  subst hrec
  simp only [List.mem_map] at hr
  obtain ⟨u, hu, rfl⟩ := hr
  simp [Bool.and_eq_true, decide_eq_true_iff]

/-- Witness for C8: viewer 10 (the owner) listing room 1 gets records for
members 10 and 7, with `canKick` false for the viewer and true for 7. -/
theorem C8_users_canKick_witness :
    chatsAPI.users wRoom1 caller10 dataRoom1 = .ok (room1.members.map (fun u =>
      { uid := u, canKick := (!(u = caller10.uid)) && (decide (room1.ownerId = caller10.uid)) })) :=
  (C8_users_canKick wRoom1 caller10 dataRoom1 1 room1 rfl rfl).1

/-- C3: if any invitee fails `canMessageUser`, room creation fails with
`Forbidden` and the world (in particular the room store) is unchanged —
`newRoom` is reached only after every per-invitee check has passed. -/
theorem C3_create_all_or_nothing (env : Env) (cfg : Config) (now : Int)
    (w : World) (caller : Caller) (data : Data) (uids : List Nat) (u : Nat)
    (hrl : (rateLimitExceeded cfg now caller.session).1 = false)
    (huids : data.uids = some (.arr uids))
    (hu : u ∈ uids) (hdeny : env.canMessageUser caller.uid u = false) :
    chatsAPI.create env cfg now w caller data =
      (.error .forbidden, (rateLimitExceeded cfg now caller.session).2, w) := by
  have hall : uids.all (fun uid => env.canMessageUser caller.uid uid) = false := by
    rw [← Bool.not_eq_true, List.all_eq_true]
    push_neg
    exact ⟨u, hu, by simp [hdeny]⟩
  simp [chatsAPI.create, hrl, huids, hall]

/-- Environment in which user 1 may not message user 7, everything else is
allowed. -/
def envDeny7 : Env :=
  { userExists := fun _ => true
    canMessageUser := fun _ t => !(t = 7)
    canMessageRoom := fun _ _ => true
    hookTransform := fun _ d => .ok d }

/-- Witness for C3: user 1 tries to create a room with invitee 7, whom they
may not message; create fails with `Forbidden` and the store stays empty. -/
theorem C3_create_all_or_nothing_witness :
    chatsAPI.create envDeny7 cfgDelay10 100 emptyWorld caller1
      { uids := some (.arr [7]), roomId := none, message := none, name := none } =
      (.error .forbidden, (rateLimitExceeded cfgDelay10 100 caller1.session).2, emptyWorld) :=
  C3_create_all_or_nothing envDeny7 cfgDelay10 100 emptyWorld caller1
    { uids := some (.arr [7]), roomId := none, message := none, name := none }
    [7] 7 (by decide) rfl (by decide) (by decide)

/-- Reading a room that is present succeeds. -/
theorem getRoomData_ok (w : World) (roomId : Nat) (room : Room)
    (h : w.findRoom roomId = some room) : messaging.getRoomData w roomId = .ok room := by
  simp [messaging.getRoomData, h]

/-- The user-list query on a present room returns one record per member with
the query-time `canKick` bit. -/
theorem users_ok (w : World) (caller : Caller) (data : Data) (roomId : Nat) (room : Room)
    (hrid : data.roomId = some roomId) (hroom : w.findRoom roomId = some room) :
    chatsAPI.users w caller data = .ok (room.members.map (fun u =>
      { uid := u, canKick := (!(u = caller.uid)) && (decide (room.ownerId = caller.uid)) })) := by
  simp [chatsAPI.users, hrid, messaging.isRoomOwner, messaging.getUsersInRoom,
    messaging.getRoomData, hroom, Except.map]

/-- Appending a fresh key at the end of an association list makes it found. -/
theorem lookup_append_fresh (rid : Nat) (v : Room) :
    ∀ (l : List (Nat × Room)), l.lookup rid = none →
      (l ++ [(rid, v)]).lookup rid = some v := by
  intro l
  induction l with
  | nil => intro _; simp [List.lookup]
  | cons p tl ih =>
    intro h
    rcases hb : rid == p.1 with _ | _
    · rw [List.lookup_cons, hb] at h
      rw [List.cons_append, List.lookup_cons, hb]
      exact ih h
    · rw [List.lookup_cons, hb] at h
      exact absurd h (by simp)

/-- C5 counterexample: `create` with a present but EMPTY `uids` array is not
rejected: an empty array is truthy in JS, so `!data.uids` is false and
`Array.isArray` holds, the per-invitee checks pass vacuously and a room
containing only the actor is created.  This refutes the part of the claim
that says an empty list is rejected with `InvalidRequest` and no room is
created. -/
theorem C5_counterexample :
    (chatsAPI.create envAllow cfgDelay10 100 emptyWorld caller1
      { uids := some (.arr []), roomId := none, message := none, name := none }).1 =
      .ok { ownerId := 1, name := none, members := [1] } ∧
    (chatsAPI.create envAllow cfgDelay10 100 emptyWorld caller1
      { uids := some (.arr []), roomId := none, message := none, name := none }).2.2.rooms.length = 1 :=
  ⟨rfl, rfl⟩

/-- C5 (amended): `create` rejects a missing or non-array `uids` with
`InvalidRequest` before any mutation (the world is unchanged); a present
empty array, however, passes the validation and a room containing only the
actor is created. -/
theorem C5_create_validation (env : Env) (cfg : Config) (now : Int) (w : World)
    (caller : Caller) (data : Data)
    (hrl : (rateLimitExceeded cfg now caller.session).1 = false)
    (hfresh : w.findRoom w.nextRoomId = none) :
    ((data.uids = none ∨ data.uids = some .notArray) →
      chatsAPI.create env cfg now w caller data =
        (.error .invalidRequest, (rateLimitExceeded cfg now caller.session).2, w)) ∧
    (data.uids = some (.arr []) →
      chatsAPI.create env cfg now w caller data =
        (.ok { ownerId := caller.uid, name := none, members := [caller.uid] },
         (rateLimitExceeded cfg now caller.session).2,
         { w with
            rooms := w.rooms ++
              [(w.nextRoomId, { ownerId := caller.uid, name := none, members := [caller.uid] })],
            nextRoomId := w.nextRoomId + 1 })) := by
  constructor
  · rintro (h | h) <;> simp [chatsAPI.create, hrl, h]
  · intro h
    have hlk : (({ w with
        rooms := w.rooms ++
          [(w.nextRoomId, { ownerId := caller.uid, name := none, members := [caller.uid] })],
        nextRoomId := w.nextRoomId + 1 } : World)).findRoom w.nextRoomId =
        some { ownerId := caller.uid, name := none, members := [caller.uid] } := by
      simpa [World.findRoom] using
        lookup_append_fresh w.nextRoomId
          { ownerId := caller.uid, name := none, members := [caller.uid] } w.rooms
          (by simpa [World.findRoom] using hfresh)
    simp [chatsAPI.create, hrl, h, messaging.newRoom, messaging.getRoomData, hlk]

/-- Witness for C5 (amended) at a concrete input: missing `uids` is rejected
with `InvalidRequest` and the store stays empty. -/
theorem C5_create_validation_witness :
    chatsAPI.create envAllow cfgDelay10 100 emptyWorld caller1 dataEmpty =
      (.error .invalidRequest, (rateLimitExceeded cfgDelay10 100 caller1.session).2,
       emptyWorld) :=
  (C5_create_validation envAllow cfgDelay10 100 emptyWorld caller1 dataEmpty
    (by decide) rfl).1 (Or.inl rfl)

/-- C7: in `post`, after the hook-pipeline transform succeeded with payload
`d`, a missing `roomId`, a missing or empty `content` (`data.message`), or an
unknown caller ip each fail the operation with `InvalidRequest`; the world is
unchanged (no message is persisted) and no effect (notification, online
marking) is dispatched. -/
theorem C7_post_validation (env : Env) (cfg : Config) (now : Int) (w : World)
    (caller : Caller) (data : Data) (d : Data)
    (hrl : (rateLimitExceeded cfg now caller.session).1 = false)
    (hhook : env.hookTransform caller.uid data = .ok d)
    (hbad : d.roomId = none ∨ d.message = none ∨ d.message = some "" ∨
            caller.ip = none ∨ caller.ip = some "") :
    chatsAPI.post env cfg now w caller data =
      (.error .invalidRequest, (rateLimitExceeded cfg now caller.session).2, w, []) := by
  rcases hbad with h | h | h | h | h <;>
    rcases hr2 : d.roomId with _ | rid <;>
    rcases hm2 : d.message with _ | msg <;>
    rcases hip2 : caller.ip with _ | ipv <;>
    simp_all [chatsAPI.post]

/-- Witness for C7: a hook-unchanged payload with `roomId` set but empty
`content` is rejected with `InvalidRequest`, with no persisted message and no
effects. -/
theorem C7_post_validation_witness :
    chatsAPI.post envAllow cfgDelay10 100 wRoom1 caller1
      { uids := none, roomId := some 1, message := some "", name := none } =
      (.error .invalidRequest, (rateLimitExceeded cfgDelay10 100 caller1.session).2,
       wRoom1, []) :=
  C7_post_validation envAllow cfgDelay10 100 wRoom1 caller1
    { uids := none, roomId := some 1, message := some "", name := none }
    { uids := none, roomId := some 1, message := some "", name := none }
    (by decide) rfl (Or.inr (Or.inr (Or.inl rfl)))

/-- Config with room capacity 2 and no message delay. -/
def cfgMax2 : Config := { chatMessageDelay := 0, maximumUsersInChatRoom := 2 }

/-- A room owned by 10 whose only member is 10. -/
def roomB : Room := { ownerId := 10, name := none, members := [10] }

def wRoomB : World := { rooms := [(1, roomB)], messages := [], nextRoomId := 2 }

def dataInvite2 : Data :=
  { uids := some (.arr [20, 30]), roomId := some 1, message := none, name := none }

/-- C1 counterexample: with `maximumUsersInChatRoom = 2` and current
membership `[10]` (size 1), inviting the two users 20 and 30 would bring
membership to 3 > 2, yet the invite is ACCEPTED (the capacity check compares
only the current size against the limit and ignores the number of incoming
invitees) and membership becomes `[10, 20, 30]`.  This refutes the claim that
an invite is accepted only when current size + k ≤ N. -/
theorem C1_counterexample :
    cfgMax2.maximumUsersInChatRoom < roomB.members.length + 2 ∧
    (chatsAPI.invite envAllow cfgMax2 wRoomB caller10 dataInvite2).1 =
      .ok [⟨10, false⟩, ⟨20, true⟩, ⟨30, true⟩] ∧
    (chatsAPI.invite envAllow cfgMax2 wRoomB caller10 dataInvite2).2.2.findRoom 1 =
      some { ownerId := 10, name := none, members := [10, 20, 30] } :=
  ⟨by decide, rfl, rfl⟩

/-- C1 (amended): the capacity check of `invite` compares only the CURRENT
membership size against `maximumUsersInChatRoom` (N > 0): an invite into a
room whose current size is at least N is rejected with `RoomFull` and the
world is unchanged, and an invite into a room whose current size is below N
is never rejected with `RoomFull`, regardless of the number of incoming
invitees. -/
theorem C1_capacity_amended (env : Env) (cfg : Config) (w : World)
    (caller : Caller) (data : Data) (roomId : Nat) (room : Room)
    (hrid : data.roomId = some roomId)
    (hroom : w.findRoom roomId = some room)
    (hN : cfg.maximumUsersInChatRoom ≠ 0) :
    (cfg.maximumUsersInChatRoom ≤ room.members.length →
      chatsAPI.invite env cfg w caller data = (.error .roomFull, data, w)) ∧
    (room.members.length < cfg.maximumUsersInChatRoom →
      ∀ uids, data.uids = some (.arr uids) →
        (chatsAPI.invite env cfg w caller data).1 ≠ .error .roomFull) := by
  have hcnt : messaging.getUserCountInRoom w roomId = .ok room.members.length := by
    simp [messaging.getUserCountInRoom, messaging.getRoomData, hroom, Except.map]
  constructor
  · intro hfull
    have hcond : (!(cfg.maximumUsersInChatRoom = 0) &&
        decide (cfg.maximumUsersInChatRoom ≤ room.members.length)) = true := by
      simp [hN, hfull]
    simp [chatsAPI.invite, hrid, hcnt, hcond]
  · intro hlt uids huids
    have hcond : (!(cfg.maximumUsersInChatRoom = 0) &&
        decide (cfg.maximumUsersInChatRoom ≤ room.members.length)) = false := by
      simp only [Bool.and_eq_false_iff]
      right
      simpa using Nat.not_le.mpr hlt
    by_cases hex : ∃ a ∈ uids, env.userExists a = false
    · simp [chatsAPI.invite, hrid, hcnt, hcond, huids, hex]
    · by_cases hmsg : ∃ x ∈ uids, env.canMessageUser caller.uid x = false
      · simp [chatsAPI.invite, hrid, hcnt, hcond, huids, hex, hmsg]
      · have hadd : messaging.addUsersToRoom w caller.uid uids roomId =
            .ok (w.setRoom roomId { room with members := uids.foldl addUnique room.members }) := by
          simp [messaging.addUsersToRoom, messaging.getRoomData, hroom, Except.map]
        have hset := findRoom_setRoom w roomId
          { room with members := uids.foldl addUnique room.members } room hroom
        have husers := users_ok
          (w.setRoom roomId { room with members := uids.foldl addUnique room.members })
          caller { data with uids := none } roomId
          { room with members := uids.foldl addUnique room.members }
          (by simpa using hrid) hset
        simp only [hrid] at husers
        simp [chatsAPI.invite, hrid, hcnt, hcond, huids, hex, hmsg, hadd, husers]

/-- Witness for C1 (amended): a full room (size 2 = N) rejects an invite with
`RoomFull` and the store is unchanged. -/
theorem C1_capacity_amended_witness :
    chatsAPI.invite envAllow cfgMax2
      { rooms := [(1, { ownerId := 10, name := none, members := [10, 7] })],
        messages := [], nextRoomId := 2 } caller10 dataInvite2 =
      (.error .roomFull, dataInvite2,
       { rooms := [(1, { ownerId := 10, name := none, members := [10, 7] })],
         messages := [], nextRoomId := 2 }) :=
  (C1_capacity_amended envAllow cfgMax2
    { rooms := [(1, { ownerId := 10, name := none, members := [10, 7] })],
      messages := [], nextRoomId := 2 } caller10 dataInvite2 1
    { ownerId := 10, name := none, members := [10, 7] } rfl rfl
    (by decide)).1 (by decide)

/-- Environment in which user 99 does not exist and everything is allowed. -/
def envNo99 : Env :=
  { userExists := fun u => !(u = 99)
    canMessageUser := fun _ _ => true
    canMessageRoom := fun _ _ => true
    hookTransform := fun _ d => .ok d }

/-- Config with room capacity 1 and no message delay. -/
def cfgMax1 : Config := { chatMessageDelay := 0, maximumUsersInChatRoom := 1 }

def dataU99 : Data :=
  { uids := some (.arr [99]), roomId := some 1, message := none, name := none }

/-- C6 counterexample: invite runs its capacity check BEFORE the existence
check, so inviting the nonexistent user 99 into a full room (capacity 1,
current size 1) fails with `RoomFull`, not `NoSuchUser` — refuting the claim
that EVERY invite containing a nonexistent id fails with `NoSuchUser`. -/
theorem C6_counterexample :
    envNo99.userExists 99 = false ∧
    chatsAPI.invite envNo99 cfgMax1 wRoomB caller10 dataU99 =
      (.error .roomFull, dataU99, wRoomB) :=
  ⟨rfl, rfl⟩

/-- C6 (amended): if any supplied target id does not exist, `kick` fails with
`NoSuchUser` unconditionally, and `invite` fails with `NoSuchUser` provided
the room exists and its preceding capacity check passes (otherwise `RoomFull`
or `NotFound` surfaces first); in either case the failure is all-or-nothing
and the world is unchanged — no membership mutation occurs. -/
theorem C6_users_exist_amended (env : Env) (cfg : Config) (w : World)
    (caller : Caller) (data : Data) (roomId : Nat) (uids : List Nat) (u : Nat)
    (room : Room)
    (hrid : data.roomId = some roomId) (huids : data.uids = some (.arr uids))
    (hu : u ∈ uids) (hmissing : env.userExists u = false) :
    chatsAPI.kick env w caller data = (.error .noSuchUser, data, w) ∧
    (w.findRoom roomId = some room →
      (cfg.maximumUsersInChatRoom = 0 ∨
        room.members.length < cfg.maximumUsersInChatRoom) →
      chatsAPI.invite env cfg w caller data = (.error .noSuchUser, data, w)) := by
  have hex : ∃ a ∈ uids, env.userExists a = false := ⟨u, hu, hmissing⟩
  constructor
  · simp [chatsAPI.kick, huids, hex]
  · intro hroom hcap
    have hcnt : messaging.getUserCountInRoom w roomId = .ok room.members.length := by
      simp [messaging.getUserCountInRoom, messaging.getRoomData, hroom, Except.map]
    have hcond : (!(cfg.maximumUsersInChatRoom = 0) &&
        decide (cfg.maximumUsersInChatRoom ≤ room.members.length)) = false := by
      rcases hcap with h | h
      · simp [h]
      · simp only [Bool.and_eq_false_iff]
        right
        simpa using Nat.not_le.mpr h
    simp [chatsAPI.invite, hrid, hcnt, hcond, huids, hex]

/-- Witness for C6 (amended): kicking and inviting the nonexistent user 99
in an uncapped room both fail with `NoSuchUser`, leaving the store unchanged. -/
theorem C6_users_exist_amended_witness :
    chatsAPI.kick envNo99 wRoomB caller10 dataU99 =
      (.error .noSuchUser, dataU99, wRoomB) ∧
    chatsAPI.invite envNo99 cfgDelay10 wRoomB caller10 dataU99 =
      (.error .noSuchUser, dataU99, wRoomB) :=
  ⟨(C6_users_exist_amended envNo99 cfgDelay10 wRoomB caller10 dataU99 1 [99] 99
      roomB rfl rfl (by decide) rfl).1,
   (C6_users_exist_amended envNo99 cfgDelay10 wRoomB caller10 dataU99 1 [99] 99
      roomB rfl rfl (by decide) rfl).2 rfl (Or.inl rfl)⟩

/-- C9: `rename` persists the new name with no ownership hypothesis on the
caller (the theorem holds for an arbitrary caller, owner or not), emits
exactly one `event:chats.roomRename` notification carrying the HTML-escaped
new name to the room's current member list, and returns the reloaded room
view for the caller. -/
theorem C9_rename (w : World) (caller : Caller) (data : Data)
    (roomId : Nat) (room : Room)
    (hrid : data.roomId = some roomId)
    (hroom : w.findRoom roomId = some room) :
    chatsAPI.rename w caller data =
      (.ok { roomId := roomId, room := { room with name := data.name } },
       w.setRoom roomId { room with name := data.name },
       [Effect.emitToUids "event:chats.roomRename" roomId
         (validatorEscape (jsString data.name)) room.members]) := by
  have hset := findRoom_setRoom w roomId { room with name := data.name } room hroom
  simp [chatsAPI.rename, hrid, messaging.renameRoom, messaging.getUidsInRoom,
    messaging.loadRoom, messaging.getRoomData, hroom, hset, Except.map]

/-- Witness for C9: caller 1 — who is NOT the owner of room 1 — renames it;
the rename succeeds, both members are notified with the escaped name
(`<b>&` becomes `&lt;b&gt;&amp;`), and the updated view is returned. -/
theorem C9_rename_witness :
    chatsAPI.rename wRoom1 caller1
      { uids := none, roomId := some 1, message := none, name := some "<b>&" } =
      (.ok { roomId := 1, room := { room1 with name := some "<b>&" } },
       wRoom1.setRoom 1 { room1 with name := some "<b>&" },
       [Effect.emitToUids "event:chats.roomRename" 1
         (validatorEscape (jsString (some "<b>&"))) room1.members]) :=
  C9_rename wRoom1 caller1
    { uids := none, roomId := some 1, message := none, name := some "<b>&" }
    1 room1 rfl rfl

/-- C10: whenever `invite` or `kick` returns successfully, the returned `data`
object has its `uids` field deleted, and the returned user list is exactly the
user-list query on the resulting room state with that uids-free data — it is
computed from room state alone, not from the submitted uids. -/
theorem C10_delete_uids (env : Env) (cfg : Config) (w : World) (caller : Caller) :
    (∀ data resp d1 w1,
      chatsAPI.invite env cfg w caller data = (.ok resp, d1, w1) →
        d1.uids = none ∧ chatsAPI.users w1 caller d1 = .ok resp) ∧
    (∀ data resp d1 w1,
      chatsAPI.kick env w caller data = (.ok resp, d1, w1) →
        d1.uids = none ∧ chatsAPI.users w1 caller d1 = .ok resp) := by
  constructor
  · intro data resp d1 w1 h
    simp only [chatsAPI.invite] at h
    repeat' split at h
    all_goals simp_all
    all_goals (obtain ⟨h1, h2, h3⟩ := h; subst h2; subst h3; exact ⟨rfl, h1⟩)
  · intro data resp d1 w1 h
    simp only [chatsAPI.kick] at h
    repeat' split at h
    all_goals simp_all
    all_goals (obtain ⟨h1, h2, h3⟩ := h; subst h2; subst h3; exact ⟨rfl, h1⟩)

/-- Witness for C10: after a successful concrete invite of 20 into room 1,
the returned data has no `uids` and the returned list is the user query on
the updated room. -/
theorem C10_delete_uids_witness :
    ({ uids := none, roomId := some 1, message := none, name := none } : Data).uids = none ∧
    chatsAPI.users
      { rooms := [(1, { ownerId := 10, name := none, members := [10, 7, 20] })],
        messages := [], nextRoomId := 2 } caller10
      { uids := none, roomId := some 1, message := none, name := none } =
      .ok [⟨10, false⟩, ⟨7, true⟩, ⟨20, true⟩] :=
  (C10_delete_uids envAllow cfgDelay10 wRoom1 caller10).1
    { uids := some (.arr [20]), roomId := some 1, message := none, name := none }
    [⟨10, false⟩, ⟨7, true⟩, ⟨20, true⟩]
    { uids := none, roomId := some 1, message := none, name := none }
    { rooms := [(1, { ownerId := 10, name := none, members := [10, 7, 20] })],
      messages := [], nextRoomId := 2 } rfl

/-- Room 1 owned by 10 with members 10 and 1 (so caller 1 is a member but not
the owner). -/
def wKick : World :=
  { rooms := [(1, { ownerId := 10, name := none, members := [10, 1] })],
    messages := [], nextRoomId := 2 }

def dataKickDup : Data :=
  { uids := some (.arr [1, 1]), roomId := some 1, message := none, name := none }

/-- C4 counterexample: the self-leave branch of `kick` tests
`length === 1 && first === actor`, a condition on the LIST, not the set.
With target list `[1, 1]` — whose target SET is exactly `{1}`, the actor —
the existing non-owner member 1 is routed to the owner-driven removal and
rejected with `Forbidden`, refuting the claim that a target set of exactly
`{actorId}` always succeeds as a self-leave. -/
theorem C4_counterexample :
    ([1, 1] : List Nat).toFinset = {1} ∧
    chatsAPI.kick envAllow wKick caller1 dataKickDup =
      (.error .forbidden, dataKickDup, wKick) :=
  ⟨by decide, rfl⟩

/-- C4 (amended): for a `kick` whose targets all exist and whose room exists:
if the target LIST is exactly the one-element list `[actorId]`, the kick is a
self-leave — it succeeds for an arbitrary caller with no ownership condition,
removing the actor from the membership; for any other target list, the
removal is owner-driven and a non-owner actor is rejected with `Forbidden`
(the world unchanged). -/
theorem C4_kick_amended (env : Env) (w : World) (caller : Caller) (data : Data)
    (roomId : Nat) (uids : List Nat) (room : Room)
    (hrid : data.roomId = some roomId) (huids : data.uids = some (.arr uids))
    (hex : ∀ u ∈ uids, env.userExists u = true)
    (hroom : w.findRoom roomId = some room) :
    (uids = [caller.uid] →
      chatsAPI.kick env w caller data =
        (.ok ((room.members.filter (fun m => !(([caller.uid] : List Nat).contains m))).map
          (fun u => { uid := u,
                      canKick := (!(u = caller.uid)) && (decide (room.ownerId = caller.uid)) })),
         { data with uids := none },
         w.setRoom roomId
           { room with
              members := room.members.filter (fun m => !(([caller.uid] : List Nat).contains m)) })) ∧
    (uids ≠ [caller.uid] → room.ownerId ≠ caller.uid →
      chatsAPI.kick env w caller data = (.error .forbidden, data, w)) := by
  constructor
  · intro hself
    subst hself
    have hu : env.userExists caller.uid = true := hex caller.uid (by simp)
    have hleave : messaging.leaveRoom w [caller.uid] roomId =
        .ok (w.setRoom roomId
          { room with
             members := room.members.filter (fun m => !(([caller.uid] : List Nat).contains m)) }) := by
      simp [messaging.leaveRoom, messaging.getRoomData, hroom, Except.map]
    have hset := findRoom_setRoom w roomId
      { room with
         members := room.members.filter (fun m => !(([caller.uid] : List Nat).contains m)) }
      room hroom
    have husers := users_ok
      (w.setRoom roomId
        { room with
           members := room.members.filter (fun m => !(([caller.uid] : List Nat).contains m)) })
      caller { data with uids := none } roomId
      { room with
         members := room.members.filter (fun m => !(([caller.uid] : List Nat).contains m)) }
      (by simpa using hrid) hset
    simp only [hrid] at husers
    simp at husers hleave
    simp [chatsAPI.kick, huids, hrid, hu, hleave, husers]
  · intro hother howner
    have hremove : messaging.removeUsersFromRoom w caller.uid uids roomId =
        .error .forbidden := by
      simp [messaging.removeUsersFromRoom, messaging.getRoomData, hroom, howner]
    rcases uids with _ | ⟨u, _ | ⟨v, tl⟩⟩
    · simp [chatsAPI.kick, huids, hrid, hremove]
    · have hne : ¬ (toString u = toString caller.uid) := by
        intro hc
        exact hother (by rw [natToString_inj u caller.uid hc])
      simp [chatsAPI.kick, huids, hrid, hremove, hne, hex u (by simp)]
    · have htl : ∀ x ∈ tl, env.userExists x = true := fun x hx =>
        hex x (List.mem_cons_of_mem _ (List.mem_cons_of_mem _ hx))
      simp [chatsAPI.kick, huids, hrid, hremove, hex u (by simp), hex v (by simp)]
      exact htl

/-- Witness for C4 (amended): non-owner member 1 leaves room 1 via
`kick` with `uids = [1]`; the leave succeeds and the membership afterwards is
`[10]`. -/
theorem C4_kick_amended_witness :
    chatsAPI.kick envAllow wKick caller1
      { uids := some (.arr [1]), roomId := some 1, message := none, name := none } =
      (.ok ((([10, 1] : List Nat).filter (fun m => !(([1] : List Nat).contains m))).map
        (fun u => { uid := u, canKick := (!(u = caller1.uid)) && (decide ((10 : Nat) = caller1.uid)) })),
       { uids := none, roomId := some 1, message := none, name := none },
       wKick.setRoom 1
         { ownerId := 10, name := none,
           members := ([10, 1] : List Nat).filter (fun m => !(([1] : List Nat).contains m)) }) :=
  (C4_kick_amended envAllow wKick caller1
    { uids := some (.arr [1]), roomId := some 1, message := none, name := none }
    1 [1] { ownerId := 10, name := none, members := [10, 1] }
    rfl rfl (by decide) rfl).1 rfl
